import Mathlib

/-!
Verification development for the play-along engine of the piano-app repository
(`src/components/LiveJamSession.tsx` and the history adapter in
`src/unnamed/part_003`).  The TypeScript source is shallowly embedded: each
definition below is a direct translation of the corresponding source function,
with JavaScript string/regex semantics spelled out explicitly (lazy dot that
excludes line terminators, first-alternative regex alternation, `trim`,
`split`, `Number`, array `slice`).
-/

namespace PianoApp

/-! ## JavaScript string primitives -/

/-- Characters removed by JavaScript `String.prototype.trim` (whitespace and
line terminators; restricted to the code points the repository's data can
contain). -/
def isJsSpace (c : Char) : Bool :=
  c = ' ' || c = '\t' || c = '\n' || c = '\r' || c = Char.ofNat 0x0b ||
  c = Char.ofNat 0x0c || c = Char.ofNat 0xa0 || c = Char.ofNat 0x2028 ||
  c = Char.ofNat 0x2029 || c = Char.ofNat 0xfeff

/-- Trim from both ends of a character list, as JS `trim` does. -/
def jsTrimEnds (l : List Char) : List Char :=
  ((l.dropWhile isJsSpace).reverse.dropWhile isJsSpace).reverse

/-- Embedding of JS `s.trim()`. -/
def jsTrim (s : String) : String :=
  String.mk (jsTrimEnds s.toList)

/-- Embedding of JS `s.split(sep)` for a single-character separator applied to
a character list.  `"1:".split(':') = ["1",""]`, `":".split(':') = ["",""]`. -/
def splitChar (sep : Char) : List Char → List (List Char)
  | [] => [[]]
  | c :: rest =>
    if c = sep then [] :: splitChar sep rest
    else
      match splitChar sep rest with
      | h :: t => (c :: h) :: t
      | [] => [[c]]

/-- Decimal digit test (`'0'..'9'`). -/
def isDigitChar (c : Char) : Bool := '0' ≤ c && c ≤ '9'

/-- Value of a decimal digit string. -/
def natOfDigits (l : List Char) : Nat :=
  l.foldl (fun acc c => acc * 10 + (c.toNat - 48)) 0

/-- Embedding of JS `Number(str)` restricted to the forms that occur in
timestamp labels: after trimming, the empty string is `0` and an optionally
signed run of decimal digits is its value; every other string is mapped to
NaN, modelled as `none`.  (Other numeric literal forms — floats, hex,
exponents — do not occur in `M:SS` / `H:MM:SS` labels and are outside the
modelled domain.) -/
def jsNumberOfList (l : List Char) : Option Int :=
  if l = [] then some 0
  else if l.head? = some '-' then
    (if (l.drop 1).isEmpty then none
     else if (l.drop 1).all isDigitChar then some (-(natOfDigits (l.drop 1) : Int))
     else none)
  else if l.head? = some '+' then
    (if (l.drop 1).isEmpty then none
     else if (l.drop 1).all isDigitChar then some ((natOfDigits (l.drop 1) : Int))
     else none)
  else if l.all isDigitChar then some ((natOfDigits l : Int))
  else none

/-- `Number` applied to a string: JS trims whitespace first. -/
def jsNumberOfString (s : String) : Option Int :=
  jsNumberOfList (jsTrimEnds s.toList)

/-- JS `+` on numbers, with NaN (`none`) propagation. -/
def jsAdd (a b : Option Int) : Option Int :=
  match a, b with
  | some x, some y => some (x + y)
  | _, _ => none

/-- JS `*` on numbers, with NaN (`none`) propagation. -/
def jsMul (a b : Option Int) : Option Int :=
  match a, b with
  | some x, some y => some (x * y)
  | _, _ => none

/-! ## Timestamp utility

Embedding of `parseTimestamp` (LiveJamSession.tsx lines 47-53):

```ts
const parseTimestamp = (timeStr?: string): number | null => {
  if (!timeStr) return null;
  const parts = timeStr.split(':').map(Number);
  if (parts.length === 2) return parts[0] * 60 + parts[1];
  if (parts.length === 3) return parts[0] * 3600 + parts[1] * 60 + parts[2];
  return null;
};
```

The outer `Option` is JS `null` (also produced by the falsy check on
`undefined` and on the empty string); the inner `Option Int` is a JS number
where `none` is NaN. -/

def parseTimestamp (timeStr : Option String) : Option (Option Int) :=
  match timeStr with
  | none => none
  | some s =>
    if s = "" then none
    else
      let parts := (splitChar ':' s.toList).map (fun p => jsNumberOfList (jsTrimEnds p))
      if parts.length = 2 then
        some (jsAdd (jsMul (parts.getD 0 none) (some 60)) (parts.getD 1 none))
      else if parts.length = 3 then
        some (jsAdd (jsAdd (jsMul (parts.getD 0 none) (some 3600))
                (jsMul (parts.getD 1 none) (some 60))) (parts.getD 2 none))
      else none

/-! ## Chord tag tokenizer

Embedding of the regex loop in the play-along flatten effect
(LiveJamSession.tsx lines 430-455):

```ts
const regex = /\[(.*?)\]([^\[]*)/g;
let match;
if (!content.includes('[')) {
  flattened.push({ ..., chord: '', text: content, ... });
} else {
  while ((match = regex.exec(content)) !== null) {
    flattened.push({ ..., chord: match[1].trim(), text: match[2].trim(), ... });
  }
}
```

JS regex semantics made explicit: a match can only start at a `'['`; the lazy
group `(.*?)` matches the shortest run of non-line-terminator characters up to
the first `']'` (the JS dot excludes `\n`, `\r`, U+2028, U+2029); after the
`']'`, the greedy class `([^\[]*)` (which does match line terminators) takes
every character up to the next `'['` or the end; `exec` then resumes at the
end of the match.  When no `']'` is reachable from a `'['` before a line
terminator or the end of input, the match attempt at that `'['` fails and the
engine retries at each later position.  Every retry inside the failed span
also fails — the span contains no `']'` up to the same terminator — so the
scan equivalently resumes right after the terminator.  `tokenizeRun` is that
scan written as a single left-to-right pass: `seek` is "searching for a
`'['`", `chord` is "inside a bracket collecting the lazy group", `text` is
"after a `']'` collecting the `[^\[]*` run of the current match". -/

/-- Line terminators excluded by the JS regex dot. -/
def isLineTerm (c : Char) : Bool :=
  c = '\n' || c = '\r' || c = Char.ofNat 0x2028 || c = Char.ofNat 0x2029

/-- Scanner state for the chord-tag regex loop (accumulators are reversed). -/
inductive TkMode where
  | seek : TkMode
  | chord (acc : List Char) : TkMode
  | text (ch : List Char) (acc : List Char) : TkMode

/-- One left-to-right pass of `/\[(.*?)\]([^\[]*)/g` over the content,
returning the raw (group 1, group 2) pairs in match order. -/
def tokenizeRun : TkMode → List Char → List (List Char × List Char)
  | mode, [] =>
    (match mode with
     | TkMode.text ch acc => [(ch, acc.reverse)]
     | _ => [])
  | mode, c :: rest =>
    match mode with
    | TkMode.seek =>
      if c = '[' then tokenizeRun (TkMode.chord []) rest
      else tokenizeRun TkMode.seek rest
    | TkMode.chord acc =>
      if c = ']' then tokenizeRun (TkMode.text acc.reverse []) rest
      else if isLineTerm c then tokenizeRun TkMode.seek rest
      else tokenizeRun (TkMode.chord (c :: acc)) rest
    | TkMode.text ch acc =>
      if c = '[' then (ch, acc.reverse) :: tokenizeRun (TkMode.chord []) rest
      else tokenizeRun (TkMode.text ch (c :: acc)) rest

/-- The tokenizer applied to one section's content string: the no-bracket
branch emits the whole content (untrimmed) with an empty chord, the regex
branch emits the matched pairs with both components trimmed. -/
def tokenizeSection (content : String) : List (String × String) :=
  if content.toList.contains '[' then
    (tokenizeRun TkMode.seek content.toList).map
      (fun p => (jsTrim (String.mk p.1), jsTrim (String.mk p.2)))
  else [("", content)]

/-- One left-to-right pass of the live-detection regex `/\[(.*?)\]/g`
(LiveJamSession.tsx line 599), returning the raw group-1 spans in match
order; the state is `none` outside brackets and `some acc` inside.  The same
lazy-dot and failure-skip semantics as for `tokenizeRun` apply. -/
def extractRun : Option (List Char) → List Char → List (List Char)
  | _, [] => []
  | none, c :: rest =>
    if c = '[' then extractRun (some []) rest else extractRun none rest
  | some acc, c :: rest =>
    if c = ']' then acc.reverse :: extractRun none rest
    else if isLineTerm c then extractRun none rest
    else extractRun (some (c :: acc)) rest

/-! ## Chord normalizer and play-along cursor

Embedding of `handlePlayAlongLogic` (LiveJamSession.tsx lines 598-619):

```ts
const chordRegex = /\[(.*?)\]/g;
while ((match = chordRegex.exec(text)) !== null) {
  const detectedChord = match[1].trim();
  setCurrentGlobalIndex(prevIndex => {
    if (prevIndex >= flatSegments.length) return prevIndex;
    const expectedSegment = flatSegments[prevIndex];
    const expectedChord = expectedSegment?.chord;
    if (!expectedChord) return prevIndex + 1;
    const cleanDetected = detectedChord.replace(/maj|min|m|7|dim|sus|4|2/g, '').trim();
    const cleanExpected = expectedChord.replace(/maj|min|m|7|dim|sus|4|2/g, '').trim();
    if (cleanDetected === cleanExpected || detectedChord === expectedChord) {
      return prevIndex + 1;
    }
    return prevIndex;
  });
}
```
-/

/-- Embedding of `.replace(/maj|min|m|7|dim|sus|4|2/g, '')`: at each position
the alternatives are tried in the regex's order (`maj`, `min`, `m`, `7`,
`dim`, `sus`, `4`, `2`) and the leftmost match is deleted, scanning resuming
after it; a character matching no alternative is kept. -/
def jsReplaceMarkers : List Char → List Char
  | 'm' :: 'a' :: 'j' :: r => jsReplaceMarkers r
  | 'm' :: 'i' :: 'n' :: r => jsReplaceMarkers r
  | 'm' :: r => jsReplaceMarkers r
  | '7' :: r => jsReplaceMarkers r
  | 'd' :: 'i' :: 'm' :: r => jsReplaceMarkers r
  | 's' :: 'u' :: 's' :: r => jsReplaceMarkers r
  | '4' :: r => jsReplaceMarkers r
  | '2' :: r => jsReplaceMarkers r
  | c :: r => c :: jsReplaceMarkers r
  | [] => []

/-- The chord comparison key: strip the quality markers, then `trim`. -/
def cleanChord (s : String) : String :=
  jsTrim (String.mk (jsReplaceMarkers s.toList))

/-- A flattened play-along segment (interface `FlattenedSegment`,
LiveJamSession.tsx lines 19-26). -/
structure FlattenedSegment where
  sectionType : String
  chord : String
  text : String
  sectionIndex : Nat
  segmentIndex : Nat
  startTime : Option String
deriving DecidableEq

/-- The `setCurrentGlobalIndex` updater of `handlePlayAlongLogic` for one
detected chord label: the cursor transition function. -/
def advanceDetected (segs : List FlattenedSegment) (pos : Nat) (detected : String) : Nat :=
  if segs.length ≤ pos then pos
  else
    match segs[pos]? with
    | none => pos + 1
    | some seg =>
      if seg.chord = "" then pos + 1
      else if cleanChord detected = cleanChord seg.chord ∨ detected = seg.chord then pos + 1
      else pos

/-- Feeding a list of detected chord labels through the cursor in order. -/
def advanceLabels (segs : List FlattenedSegment) (pos : Nat) (labels : List String) : Nat :=
  labels.foldl (advanceDetected segs) pos

/-- Embedding of `handlePlayAlongLogic` on a whole transcription fragment:
extract the bracketed chord labels (trimmed) and feed each through the
cursor. -/
def handlePlayAlongLogic (segs : List FlattenedSegment) (pos : Nat) (text : String) : Nat :=
  advanceLabels segs pos ((extractRun none text.toList).map (fun l => jsTrim (String.mk l)))

/-! ## Canonical song data model (`src/types.ts`) -/

/-- `SongSection` from types.ts.  The `type` field is kept as a free string:
the score parser also stores free-form rehearsal-mark labels in it (the
TypeScript code casts them with `as any`). -/
structure SongSection where
  type : String
  content : String
  startTime : Option String
deriving DecidableEq

/-- `SongAnalysisResult` from types.ts.  `sections` is optional because the
flatten effect defends against its absence (`selectedSong.sections || ...`),
and `lyrics` is the legacy fallback. -/
structure SongAnalysisResult where
  title : String
  artist : String
  key : String
  chords : List String
  sections : Option (List SongSection)
  lyrics : Option String
  videoId : Option String
  spotifyId : Option String
  musescoreUrl : Option String
deriving DecidableEq

/-- `HistoryItem` from types.ts. -/
structure HistoryItem where
  id : String
  timestamp : Nat
  data : SongAnalysisResult
deriving DecidableEq

/-! ## Segment flattener

Embedding of the play-along flatten effect (LiveJamSession.tsx lines
421-461): every section's content is tokenized and each (chord, text) pair
becomes one `FlattenedSegment` carrying the section index and a single global
counter; afterwards the effect runs `setFlatSegments(flattened)` and
`setCurrentGlobalIndex(0)`. -/

/-- Flatten the sections, threading the section index and the global segment
counter exactly as the `forEach` over `sectionsToProcess` does. -/
def flattenSecs : List SongSection → Nat → Nat → List FlattenedSegment
  | [], _, _ => []
  | sec :: rest, sIdx, gIdx =>
    let pairs := tokenizeSection sec.content
    (pairs.enum.map fun pr =>
      { sectionType := sec.type, chord := pr.2.1, text := pr.2.2,
        sectionIndex := sIdx, segmentIndex := gIdx + pr.1,
        startTime := sec.startTime })
      ++ flattenSecs rest (sIdx + 1) (gIdx + pairs.length)

/-- `sectionsToProcess`: the record's sections, or the single legacy fallback
section `{ type: 'General', content: selectedSong.lyrics || '' }`. -/
def flattenSong (song : SongAnalysisResult) : List FlattenedSegment :=
  flattenSecs (song.sections.getD
    [{ type := "General", content := song.lyrics.getD "", startTime := none }]) 0 0

/-! ## Play-along state machine

The component state relevant to the play-along cursor, with the two event
sources that touch it: selecting/analyzing/importing a song (which fires the
`[selectedSong]` effect: `setFlatSegments(flattened); setCurrentGlobalIndex(0)`)
and an incoming transcription fragment (which runs `handlePlayAlongLogic`).
Per the single-threaded event model, the flatten effect is a synchronous
transition completed before any later detection event. -/

structure PlayState where
  segments : List FlattenedSegment
  position : Nat
deriving DecidableEq

inductive PlayEvent where
  | selectSong (r : SongAnalysisResult) : PlayEvent
  | detect (text : String) : PlayEvent

/-- One event transition: a song selection rebuilds the segment list by
flattening and resets the cursor to 0; a detection fragment advances the
cursor over the current segment list. -/
def stepEvent (s : PlayState) : PlayEvent → PlayState
  | PlayEvent.selectSong r => { segments := flattenSong r, position := 0 }
  | PlayEvent.detect t =>
    { segments := s.segments, position := handlePlayAlongLogic s.segments s.position t }

/-- Run a sequence of events in arrival order. -/
def runEvents (s : PlayState) (es : List PlayEvent) : PlayState :=
  es.foldl stepEvent s

/-! ## History store adapter

Embedding of the save path used by both `handleAnalyze` / `handleFileUpload`
(LiveJamSession.tsx lines 361-368 / 397-405) and `saveToHistory`
(src/unnamed/part_003 lines 26-35):

```ts
const updatedHistory = [newItem, ...history].slice(0, 10);
```
-/

def saveToHistory (history : List HistoryItem) (item : HistoryItem) : List HistoryItem :=
  (item :: history).take 10

/-! ## Score parser: key signature mapping

Embedding of the key detection in `parseMusicXML` (LiveJamSession.tsx lines
63-74):

```ts
let key = "C";
if (fifthsNode && fifthsNode.textContent) {
  const f = parseInt(fifthsNode.textContent);
  const majorKeys = { 0:"C", 1:"G", 2:"D", 3:"A", 4:"E", 5:"B", 6:"F#", 7:"C#",
    [-1]:"F", [-2]:"Bb", [-3]:"Eb", [-4]:"Ab", [-5]:"Db", [-6]:"Gb", [-7]:"Cb" };
  if (majorKeys[f]) key = majorKeys[f] + " Major";
}
```

The input is modelled as `Option Int`: `none` stands for a missing `fifths`
node, an empty text content, or a `parseInt` result of NaN (each of which
leaves `key` at its initial value `"C"`, the first two by skipping the block
and the last because `majorKeys[NaN]` is undefined). -/

/-- The `majorKeys` circle-of-fifths table. -/
def majorKeys (f : Int) : Option String :=
  if f = 0 then some "C" else if f = 1 then some "G" else if f = 2 then some "D"
  else if f = 3 then some "A" else if f = 4 then some "E" else if f = 5 then some "B"
  else if f = 6 then some "F#" else if f = 7 then some "C#"
  else if f = -1 then some "F" else if f = -2 then some "Bb"
  else if f = -3 then some "Eb" else if f = -4 then some "Ab"
  else if f = -5 then some "Db" else if f = -6 then some "Gb"
  else if f = -7 then some "Cb" else none

/-- The resulting `key` value of the parsed score. -/
def keyFromFifths (fifths : Option Int) : String :=
  match fifths with
  | none => "C"
  | some f =>
    match majorKeys f with
    | some name => name ++ " Major"
    | none => "C"

/-! ## Score parser: harmony and note events

Embedding of the measure-children loop of `parseMusicXML` (LiveJamSession.tsx
lines 106-145). -/

/-- JS `toLowerCase` (ASCII range, which covers MusicXML kind strings). -/
def jsToLower (s : String) : String :=
  String.mk (s.toList.map Char.toLower)

/-- Bool test that `pat` is a prefix of `l`. -/
def startsWithL : List Char → List Char → Bool
  | [], _ => true
  | _ :: _, [] => false
  | p :: ps, c :: cs => p = c && startsWithL ps cs

/-- Bool test that `pat` occurs as a contiguous substring of `l`
(JS `String.prototype.includes`). -/
def containsSubL (pat : List Char) : List Char → Bool
  | [] => startsWithL pat []
  | l@(_ :: rest) => startsWithL pat l || containsSubL pat rest

/-- The quality-suffix branch chain applied to a truthy `kind` string:

```ts
const k = kind.toLowerCase();
if (k === 'minor' || k === 'min') chord += 'm';
else if (k === 'major' || k === 'maj') chord += '';
else if (k.includes('min') && k.includes('7')) chord += 'm7';
else if (k.includes('maj') && k.includes('7')) chord += 'maj7';
else if (k === 'dominant' || k === '7') chord += '7';
else if (k === 'diminished' || k === 'dim') chord += 'dim';
else if (k === 'augmented' || k === 'aug') chord += 'aug';
```
-/
def suffixOfKind (kind : String) : String :=
  let k := jsToLower kind
  if k = "minor" ∨ k = "min" then "m"
  else if k = "major" ∨ k = "maj" then ""
  else if containsSubL "min".toList k.toList && containsSubL "7".toList k.toList then "m7"
  else if containsSubL "maj".toList k.toList && containsSubL "7".toList k.toList then "maj7"
  else if k = "dominant" ∨ k = "7" then "7"
  else if k = "diminished" ∨ k = "dim" then "dim"
  else if k = "augmented" ∨ k = "aug" then "aug"
  else ""

/-- The chord label built from a truthy root step: root letter, then `#` when
`root-alter` is the string `"1"`, then `b` when it is `"-1"`, then the kind
suffix (skipped when `kind` is absent or empty, i.e. falsy). -/
def chordLabel (root : String) (rootAlter : Option String) (kind : Option String) : String :=
  let c1 := if rootAlter = some "1" then root ++ "#" else root
  let c2 := if rootAlter = some "-1" then c1 ++ "b" else c1
  match kind with
  | none => c2
  | some k => if k = "" then c2 else c2 ++ suffixOfKind k

/-- A `harmony` element's extracted fields: `root > root-step` text,
`root > root-alter` text, and `kind` (its `text` attribute, falling back to
its text content). -/
structure HarmonyEvent where
  rootStep : Option String
  rootAlter : Option String
  kind : Option String
deriving DecidableEq

/-- A measure child relevant to section content: a harmony element, or a note
element with its `lyric > text` and `lyric > syllabic` contents. -/
inductive MeasureChild where
  | harmony (hv : HarmonyEvent) : MeasureChild
  | note (lyric : Option String) (syllabic : Option String) : MeasureChild

/-- Add a chord to the vocabulary `Set` (JS `Set` keeps insertion order and
ignores duplicates; `Array.from` reads it back in that order). -/
def addChord (vocab : List String) (c : String) : List String :=
  if vocab.contains c then vocab else vocab ++ [c]

/-- Processing one measure child against the accumulated
(section content, chord vocabulary) state:

```ts
if (child.tagName === 'harmony') {
  ...
  if (rootStep) {
    let chord = ...;                        // chordLabel
    currentSectionContent += ` [${chord}] `;
    allChords.add(chord);
  }
} else if (child.tagName === 'note') {
  const lyric = ...;
  if (lyric && lyric.trim()) {
    const syllabic = ...;
    if (syllabic === 'single' || syllabic === 'end') {
      currentSectionContent += lyric + " ";
    } else {
      currentSectionContent += lyric;
    }
  }
}
```
-/
def applyChild (st : String × List String) : MeasureChild → String × List String
  | MeasureChild.harmony hv =>
    match hv.rootStep with
    | none => st
    | some root =>
      if root = "" then st
      else
        let chord := chordLabel root hv.rootAlter hv.kind
        (st.1 ++ " [" ++ chord ++ "] ", addChord st.2 chord)
  | MeasureChild.note lyric syllabic =>
    match lyric with
    | none => st
    | some ly =>
      if ly = "" then st
      else if jsTrim ly = "" then st
      else if syllabic = some "single" ∨ syllabic = some "end" then (st.1 ++ ly ++ " ", st.2)
      else (st.1 ++ ly, st.2)

/-! ## Concrete sample data used by examples and witnesses -/

/-- A cursor segment list whose expected chords are `[C, G, Am, F]`. -/
def exampleSegs : List FlattenedSegment :=
  [⟨"General", "C", "", 0, 0, none⟩,
   ⟨"General", "G", "", 0, 1, none⟩,
   ⟨"General", "Am", "", 0, 2, none⟩,
   ⟨"General", "F", "", 0, 3, none⟩]

/-- A minimal song record (for building history entries). -/
def sampleSong : SongAnalysisResult :=
  ⟨"title", "artist", "C", [], none, none, none, none, none⟩

/-- A numbered history entry over the minimal song. -/
def sampleItem (n : Nat) : HistoryItem :=
  ⟨toString n, n, sampleSong⟩

/-- A history list at the 10-entry capacity. -/
def hist10 : List HistoryItem :=
  [sampleItem 1, sampleItem 2, sampleItem 3, sampleItem 4, sampleItem 5,
   sampleItem 6, sampleItem 7, sampleItem 8, sampleItem 9, sampleItem 10]

/-! ## Cursor lemmas -/

theorem advanceDetected_eq_self_or_succ (segs : List FlattenedSegment) (pos : Nat)
    (d : String) : advanceDetected segs pos d = pos ∨ advanceDetected segs pos d = pos + 1 := by
  unfold advanceDetected
  repeat' split
  all_goals simp

theorem advanceDetected_of_len_le (segs : List FlattenedSegment) (pos : Nat) (d : String)
    (h : segs.length ≤ pos) : advanceDetected segs pos d = pos := by
  unfold advanceDetected
  simp [h]

theorem le_advanceDetected (segs : List FlattenedSegment) (pos : Nat) (d : String) :
    pos ≤ advanceDetected segs pos d := by
  rcases advanceDetected_eq_self_or_succ segs pos d with h | h <;> omega

theorem advanceDetected_le_length (segs : List FlattenedSegment) (pos : Nat) (d : String)
    (h : pos ≤ segs.length) : advanceDetected segs pos d ≤ segs.length := by
  by_cases hlt : segs.length ≤ pos
  · rw [advanceDetected_of_len_le segs pos d hlt]; omega
  · rcases advanceDetected_eq_self_or_succ segs pos d with h2 | h2 <;> omega

theorem le_advanceLabels (segs : List FlattenedSegment) (pos : Nat) (labels : List String) :
    pos ≤ advanceLabels segs pos labels := by
  induction labels generalizing pos with
  | nil => simp [advanceLabels]
  | cons l ls ih =>
    calc pos ≤ advanceDetected segs pos l := le_advanceDetected segs pos l
    _ ≤ advanceLabels segs (advanceDetected segs pos l) ls := ih _
    _ = advanceLabels segs pos (l :: ls) := rfl

theorem advanceLabels_le_length (segs : List FlattenedSegment) (pos : Nat)
    (labels : List String) (h : pos ≤ segs.length) :
    advanceLabels segs pos labels ≤ segs.length := by
  induction labels generalizing pos with
  | nil => simpa [advanceLabels] using h
  | cons l ls ih =>
    have h1 : advanceDetected segs pos l ≤ segs.length :=
      advanceDetected_le_length segs pos l h
    exact ih _ h1

theorem advanceLabels_of_len_le (segs : List FlattenedSegment) (pos : Nat)
    (labels : List String) (h : segs.length ≤ pos) :
    advanceLabels segs pos labels = pos := by
  induction labels with
  | nil => rfl
  | cons l ls ih =>
    show advanceLabels segs (advanceDetected segs pos l) ls = pos
    rw [advanceDetected_of_len_le segs pos l h]
    exact ih

/-! ## Tokenizer lemmas -/

theorem tokenizeRun_seek_nil : tokenizeRun TkMode.seek [] = [] := rfl

theorem tokenizeRun_chord_nil (acc : List Char) :
    tokenizeRun (TkMode.chord acc) [] = [] := rfl

theorem tokenizeRun_seek_cons (c : Char) (l : List Char) :
    tokenizeRun TkMode.seek (c :: l) =
      if c = '[' then tokenizeRun (TkMode.chord []) l
      else tokenizeRun TkMode.seek l := rfl

theorem tokenizeRun_chord_cons (acc : List Char) (c : Char) (l : List Char) :
    tokenizeRun (TkMode.chord acc) (c :: l) =
      if c = ']' then tokenizeRun (TkMode.text acc.reverse []) l
      else if isLineTerm c then tokenizeRun TkMode.seek l
      else tokenizeRun (TkMode.chord (c :: acc)) l := rfl

theorem containsChar_iff (l : List Char) (c : Char) : l.contains c = true ↔ c ∈ l := by
  induction l with
  | nil => simp
  | cons a as ih => simp

/-- In seek mode the scanner ignores every character before the first `'['`. -/
theorem tokenizeRun_seek_append (pre rest : List Char) (h : ∀ c ∈ pre, c ≠ '[') :
    tokenizeRun TkMode.seek (pre ++ rest) = tokenizeRun TkMode.seek rest := by
  induction pre with
  | nil => rfl
  | cons c cs ih =>
    have hc : c ≠ '[' := h c (by simp)
    have ih2 := ih (fun x hx => h x (by simp [hx]))
    rw [List.cons_append, tokenizeRun_seek_cons, if_neg hc, ih2]

/-- With no `']'` in the input, the scanner can never reach text mode and so
emits nothing, from seek mode or from inside a bracket. -/
theorem tokenizeRun_of_no_close (l : List Char) (h : ∀ c ∈ l, c ≠ ']') :
    tokenizeRun TkMode.seek l = [] ∧ ∀ acc, tokenizeRun (TkMode.chord acc) l = [] := by
  induction l with
  | nil => exact ⟨rfl, fun _ => rfl⟩
  | cons c cs ih =>
    have hc : c ≠ ']' := h c (by simp)
    obtain ⟨ih1, ih2⟩ := ih (fun x hx => h x (by simp [hx]))
    constructor
    · rw [tokenizeRun_seek_cons]
      by_cases hb : c = '['
      · rw [if_pos hb]; exact ih2 []
      · rw [if_neg hb]; exact ih1
    · intro acc
      rw [tokenizeRun_chord_cons, if_neg hc]
      by_cases ht : isLineTerm c = true
      · rw [if_pos ht]; exact ih1
      · rw [if_neg ht]; exact ih2 _

/-- The no-bracket branch of the tokenizer. -/
theorem tokenizeSection_of_no_bracket (content : String)
    (h : content.toList.contains '[' = false) :
    tokenizeSection content = [("", content)] := by
  have hne : ¬ (content.toList.contains '[' = true) := by rw [h]; simp
  unfold tokenizeSection
  rw [if_neg hne]

/-! ## Split and number lemmas -/

theorem splitChar_of_not_mem (sep : Char) (l : List Char) (h : ∀ c ∈ l, c ≠ sep) :
    splitChar sep l = [l] := by
  induction l with
  | nil => rfl
  | cons c rest ih =>
    have hc : c ≠ sep := h c (by simp)
    have hr : splitChar sep rest = [rest] := ih (fun x hx => h x (by simp [hx]))
    unfold splitChar
    rw [if_neg hc, hr]

theorem splitChar_cons (sep c : Char) (l : List Char) :
    splitChar sep (c :: l) =
      if c = sep then [] :: splitChar sep l
      else
        match splitChar sep l with
        | h :: t => (c :: h) :: t
        | [] => [[c]] := rfl

theorem splitChar_append (sep : Char) (a b : List Char) (h : ∀ c ∈ a, c ≠ sep) :
    splitChar sep (a ++ sep :: b) = a :: splitChar sep b := by
  induction a with
  | nil => simp [splitChar]
  | cons c rest ih =>
    have hc : c ≠ sep := h c (by simp)
    have hr := ih (fun x hx => h x (by simp [hx]))
    rw [List.cons_append, splitChar_cons, if_neg hc, hr]

theorem digit_not_space (c : Char) (h : isDigitChar c = true) : isJsSpace c = false := by
  by_contra hs
  rw [Bool.not_eq_false] at hs
  simp only [isJsSpace, Bool.or_eq_true, decide_eq_true_eq] at hs
  rcases hs with
    (((((((((rfl | rfl) | rfl) | rfl) | rfl) | rfl) | rfl) | rfl) | rfl) | rfl) <;>
    exact absurd h (by decide)

theorem digit_ne_colon (c : Char) (h : isDigitChar c = true) : c ≠ ':' := by
  intro hc
  subst hc
  exact absurd h (by decide)

theorem dropWhile_eq_self_of (p : Char → Bool) (l : List Char)
    (h : ∀ c ∈ l, p c = false) : l.dropWhile p = l := by
  cases l with
  | nil => rfl
  | cons c rest =>
    rw [List.dropWhile_cons, if_neg]
    simp [h c (by simp)]

theorem jsTrimEnds_eq_self (l : List Char) (h : ∀ c ∈ l, isJsSpace c = false) :
    jsTrimEnds l = l := by
  unfold jsTrimEnds
  rw [dropWhile_eq_self_of _ l h,
    dropWhile_eq_self_of _ l.reverse (fun c hc => h c (List.mem_reverse.mp hc))]
  exact List.reverse_reverse l

theorem jsNumberOfList_digits (l : List Char) (hne : l ≠ [])
    (hd : l.all isDigitChar = true) : jsNumberOfList l = some ((natOfDigits l : Int)) := by
  obtain ⟨c, rest, rfl⟩ := List.exists_cons_of_ne_nil hne
  have hc : isDigitChar c = true := by
    rw [List.all_cons, Bool.and_eq_true] at hd
    exact hd.1
  have hcm : c ≠ '-' := by
    intro hcc; subst hcc; exact absurd hc (by decide)
  have hcp : c ≠ '+' := by
    intro hcc; subst hcc; exact absurd hc (by decide)
  rw [List.all_cons, Bool.and_eq_true] at hd
  unfold jsNumberOfList
  rw [if_neg hne, if_neg (by simp [hcm]), if_neg (by simp [hcp]),
    if_pos (by rw [List.all_cons, Bool.and_eq_true]; exact ⟨hc, hd.2⟩)]

/-- Digit lists pass through `Number`'s whitespace trim and parse to their
decimal value. -/
theorem jsNumber_digit_field (l : List Char) (hne : l ≠ [])
    (hd : l.all isDigitChar = true) :
    jsNumberOfList (jsTrimEnds l) = some ((natOfDigits l : Int)) := by
  rw [jsTrimEnds_eq_self l (fun c hc => digit_not_space c (by
    rw [List.all_eq_true] at hd
    exact hd c hc))]
  exact jsNumberOfList_digits l hne hd

theorem stringMk_ne_empty (l : List Char) (hne : l ≠ []) : String.mk l ≠ "" := by
  intro hcontra
  exact hne (congrArg String.toList hcontra)

/-- `parseTimestamp` on a well-formed two-field digit label. -/
theorem parseTimestamp_two_fields (m s : List Char) (hm : m ≠ []) (hs : s ≠ [])
    (hdm : m.all isDigitChar = true) (hds : s.all isDigitChar = true) :
    parseTimestamp (some (String.mk (m ++ ':' :: s))) =
      some (some ((natOfDigits m : Int) * 60 + (natOfDigits s : Int))) := by
  have hmc : ∀ c ∈ m, c ≠ ':' := fun c hc => digit_ne_colon c (by
    rw [List.all_eq_true] at hdm
    exact hdm c hc)
  have hsc : ∀ c ∈ s, c ≠ ':' := fun c hc => digit_ne_colon c (by
    rw [List.all_eq_true] at hds
    exact hds c hc)
  have hsplit : splitChar ':' (m ++ ':' :: s) = [m, s] := by
    rw [splitChar_append ':' m s hmc, splitChar_of_not_mem ':' s hsc]
  have hnem : String.mk (m ++ ':' :: s) ≠ "" := stringMk_ne_empty _ (by simp)
  simp only [parseTimestamp]
  rw [if_neg hnem]
  simp [hsplit, jsNumber_digit_field m hm hdm, jsNumber_digit_field s hs hds,
    jsAdd, jsMul]

/-- `parseTimestamp` on a well-formed three-field digit label. -/
theorem parseTimestamp_three_fields (a b c : List Char) (ha : a ≠ []) (hb : b ≠ [])
    (hc : c ≠ []) (hda : a.all isDigitChar = true) (hdb : b.all isDigitChar = true)
    (hdc : c.all isDigitChar = true) :
    parseTimestamp (some (String.mk (a ++ ':' :: (b ++ ':' :: c)))) =
      some (some ((natOfDigits a : Int) * 3600 + (natOfDigits b : Int) * 60 +
        (natOfDigits c : Int))) := by
  have hac : ∀ x ∈ a, x ≠ ':' := fun x hx => digit_ne_colon x (by
    rw [List.all_eq_true] at hda
    exact hda x hx)
  have hbc : ∀ x ∈ b, x ≠ ':' := fun x hx => digit_ne_colon x (by
    rw [List.all_eq_true] at hdb
    exact hdb x hx)
  have hcc : ∀ x ∈ c, x ≠ ':' := fun x hx => digit_ne_colon x (by
    rw [List.all_eq_true] at hdc
    exact hdc x hx)
  have hsplit : splitChar ':' (a ++ ':' :: (b ++ ':' :: c)) = [a, b, c] := by
    rw [splitChar_append ':' a _ hac, splitChar_append ':' b c hbc,
      splitChar_of_not_mem ':' c hcc]
  have hnem : String.mk (a ++ ':' :: (b ++ ':' :: c)) ≠ "" := stringMk_ne_empty _ (by simp)
  simp only [parseTimestamp]
  rw [if_neg hnem]
  simp [hsplit, jsNumber_digit_field a ha hda, jsNumber_digit_field b hb hdb,
    jsNumber_digit_field c hc hdc, jsAdd, jsMul]

/-- `parseTimestamp` returns null when the label does not split into exactly
2 or 3 colon-separated fields. -/
theorem parseTimestamp_bad_arity (s : String) (hne : s ≠ "")
    (h2 : (splitChar ':' s.toList).length ≠ 2)
    (h3 : (splitChar ':' s.toList).length ≠ 3) :
    parseTimestamp (some s) = none := by
  simp only [parseTimestamp]
  rw [if_neg hne]
  have hlen : ∀ f : List Char → Option Int,
      ((splitChar ':' s.toList).map f).length = (splitChar ':' s.toList).length :=
    fun f => List.length_map _ f
  rw [if_neg (by rw [hlen]; exact h2), if_neg (by rw [hlen]; exact h3)]

/-! ## Claim theorems -/

/-- Claim C1: for every flattened segment list and cursor position `p < N`
whose expected segment has a non-empty chord, `advance(detectedChordLabel)`
moves the position from `p` to `p+1` if and only if the detected label and
the expected chord are equal after stripping the markers
`maj|min|m|7|dim|sus|4|2` (and trimming, as the code does), or the two raw
labels are byte-identical; on mismatch the position stays at `p`.  A cursor
over expected chords `[C, G, Am, F]` fed the detections `C, G, Am, Q` in
order ends at position 3. -/
theorem chord_match_advances_cursor :
    (∀ (segs : List FlattenedSegment) (pos : Nat) (h : pos < segs.length) (d : String),
      segs[pos].chord ≠ "" →
      (advanceDetected segs pos d = pos + 1 ↔
        (cleanChord d = cleanChord segs[pos].chord ∨ d = segs[pos].chord)) ∧
      (¬(cleanChord d = cleanChord segs[pos].chord ∨ d = segs[pos].chord) →
        advanceDetected segs pos d = pos)) ∧
    advanceLabels exampleSegs 0 ["C", "G", "Am", "Q"] = 3 := by
  constructor
  · intro segs pos h d hc
    have hnle : ¬ segs.length ≤ pos := by omega
    have hget : segs[pos]? = some segs[pos] := List.getElem?_eq_getElem h
    have key : advanceDetected segs pos d =
        if cleanChord d = cleanChord segs[pos].chord ∨ d = segs[pos].chord
        then pos + 1 else pos := by
      unfold advanceDetected
      rw [if_neg hnle, hget]
      simp [hc]
    constructor
    · rw [key]
      by_cases hm : cleanChord d = cleanChord segs[pos].chord ∨ d = segs[pos].chord <;>
        simp [hm]
    · intro hm
      rw [key, if_neg hm]
  · decide

/-- Witness for C1 at a concrete input: at position 0 of the example segment
list (expected chord `C`, non-empty) the detection `C` advances the cursor to
1. -/
theorem chord_match_advances_cursor_witness :
    advanceDetected exampleSegs 0 "C" = 0 + 1 := by
  have h := chord_match_advances_cursor.1 exampleSegs 0 (by decide) "C" (by decide)
  exact h.1.mpr (by decide)

/-- Claim C2: across any finite sequence of advance calls the cursor position
is non-decreasing, never exceeds the segment count when started at 0, and a
position at or past the segment count absorbs every further call. -/
theorem cursor_monotone_and_bounded :
    (∀ (segs : List FlattenedSegment) (pos : Nat) (d : String),
        pos ≤ advanceDetected segs pos d) ∧
    (∀ (segs : List FlattenedSegment) (pos : Nat) (d : String),
        segs.length ≤ pos → advanceDetected segs pos d = pos) ∧
    (∀ (segs : List FlattenedSegment) (pos : Nat) (labels : List String),
        pos ≤ advanceLabels segs pos labels) ∧
    (∀ (segs : List FlattenedSegment) (labels : List String),
        advanceLabels segs 0 labels ≤ segs.length) ∧
    (∀ (segs : List FlattenedSegment) (pos : Nat) (labels : List String),
        segs.length ≤ pos → advanceLabels segs pos labels = pos) :=
  ⟨le_advanceDetected, advanceDetected_of_len_le, le_advanceLabels,
   fun segs labels => advanceLabels_le_length segs 0 labels (Nat.zero_le _),
   advanceLabels_of_len_le⟩

/-- Witness for C2 at concrete inputs: a cursor already past the 4-segment
example list is left unchanged by a single call and by a two-call sequence. -/
theorem cursor_monotone_and_bounded_witness :
    advanceDetected exampleSegs 9 "C" = 9 ∧ advanceLabels exampleSegs 7 ["C", "G"] = 7 :=
  ⟨cursor_monotone_and_bounded.2.1 exampleSegs 9 "C" (by decide),
   cursor_monotone_and_bounded.2.2.2.2 exampleSegs 7 ["C", "G"] (by decide)⟩

/-- Claim C3: whenever the active song record changes, the segment list is
recomputed by flattening the new record and the cursor position is reset to 0
before any further advance calls take effect; the state after the selection
(and after any subsequent event sequence) is independent of the previous
state, so no cursor position or segment list carries over across songs. -/
theorem song_change_resets_cursor :
    ∀ (s t : PlayState) (r : SongAnalysisResult) (es : List PlayEvent),
      (stepEvent s (PlayEvent.selectSong r)).segments = flattenSong r ∧
      (stepEvent s (PlayEvent.selectSong r)).position = 0 ∧
      runEvents (stepEvent s (PlayEvent.selectSong r)) es =
        runEvents (stepEvent t (PlayEvent.selectSong r)) es :=
  fun _ _ _ _ => ⟨rfl, rfl, rfl⟩

/-- Counterexample to C4 as stated: the content `"a[b"` has an unterminated
bracket; the tokenizer emits no pair at all, so the text does not appear in
any emitted (chord, text) pair — it is dropped, not treated as literal
text. -/
theorem tokenizer_tolerance_counterexample : tokenizeSection "a[b" = [] := by decide

/-- Claim C4 (amended): the tokenizer never raises an error on any content
string; a content string containing no `'['` degrades to a single literal
pair carrying the whole string, but when the content contains `'['`,
unterminated or malformed bracket spans (and the text around them) are
silently dropped from the output — in particular a content with `'['` but no
`']'` yields no pairs at all. -/
theorem tokenizer_tolerance_amended :
    (∀ content : String, content.toList.contains '[' = false →
        tokenizeSection content = [("", content)]) ∧
    (∀ content : String, content.toList.contains '[' = true →
        content.toList.contains ']' = false → tokenizeSection content = []) := by
  constructor
  · exact tokenizeSection_of_no_bracket
  · intro content h1 h2
    have hnc : ∀ c ∈ content.toList, c ≠ ']' := by
      intro c hc hcontra
      subst hcontra
      rw [(containsChar_iff content.toList ']').mpr hc] at h2
      exact Bool.noConfusion h2
    unfold tokenizeSection
    rw [if_pos h1, (tokenizeRun_of_no_close content.toList hnc).1]
    rfl

/-- Witness for C4 (amended) at concrete inputs: a bracket-free content is
passed through whole, and `"x[y"` (a `'['` with no `']'`) tokenizes to
nothing. -/
theorem tokenizer_tolerance_amended_witness :
    tokenizeSection "plain text" = [("", "plain text")] ∧ tokenizeSection "x[y" = [] :=
  ⟨tokenizer_tolerance_amended.1 "plain text" (by decide),
   tokenizer_tolerance_amended.2 "x[y" (by decide) (by decide)⟩

/-- Claim C5: a content string containing no `'['` tokenizes to exactly one
pair with an empty chord and the full (untrimmed) input as text, and
`"[C] Hello [G] world"` tokenizes to exactly `[("C","Hello"), ("G","world")]`
in that order. -/
theorem tokenizer_basic_shape :
    (∀ content : String, content.toList.contains '[' = false →
        tokenizeSection content = [("", content)]) ∧
    tokenizeSection "[C] Hello [G] world" = [("C", "Hello"), ("G", "world")] :=
  ⟨tokenizeSection_of_no_bracket, by decide⟩

/-- Witness for C5 at a concrete input: a bracket-free content yields the
single full-text pair. -/
theorem tokenizer_basic_shape_witness :
    tokenizeSection "no brackets here" = [("", "no brackets here")] :=
  tokenizer_basic_shape.1 "no brackets here" (by decide)

/-- Claim C10 (implicit): when a section content contains `'['`, any literal
text before the first `'['` has no influence on the emitted pairs — the
output over `pre ++ rest` (with `pre` bracket-free) equals the output over
`rest` alone, so a leading untagged text run is silently dropped; e.g.
`"hello [C] world"` yields only `[("C","world")]`. -/
theorem leading_text_dropped :
    (∀ pre rest : List Char, pre.contains '[' = false → rest.contains '[' = true →
        tokenizeSection (String.mk (pre ++ rest)) = tokenizeSection (String.mk rest)) ∧
    tokenizeSection "hello [C] world" = [("C", "world")] := by
  constructor
  · intro pre rest h1 h2
    have hpre : ∀ c ∈ pre, c ≠ '[' := by
      intro c hc hcontra
      subst hcontra
      rw [(containsChar_iff pre '[').mpr hc] at h1
      exact Bool.noConfusion h1
    have hl1 : (String.mk (pre ++ rest)).toList = pre ++ rest := rfl
    have hl2 : (String.mk rest).toList = rest := rfl
    have hcontains : (pre ++ rest).contains '[' = true := by
      refine (containsChar_iff _ _).mpr ?_
      exact List.mem_append_right pre ((containsChar_iff rest '[').mp h2)
    unfold tokenizeSection
    rw [hl1, hl2, if_pos hcontains, if_pos h2,
      tokenizeRun_seek_append pre rest hpre]
  · decide

/-- Witness for C10 at a concrete input: prepending the bracket-free run
`"hi "` to `"[C]x"` does not change the tokenizer output. -/
theorem leading_text_dropped_witness :
    tokenizeSection (String.mk (['h', 'i', ' '] ++ ['[', 'C', ']', 'x'])) =
      tokenizeSection (String.mk ['[', 'C', ']', 'x']) :=
  leading_text_dropped.1 ['h', 'i', ' '] ['[', 'C', ']', 'x'] (by decide) (by decide)

/-- Counterexample to C6 as stated: for a missing fifths value (and likewise
for an out-of-table value such as 8) the resulting key is the string `"C"`,
not `"C Major"` — the initializer `let key = "C"` is never suffixed when the
table lookup misses. -/
theorem key_default_counterexample :
    keyFromFifths none = "C" ∧ keyFromFifths none ≠ "C Major" ∧
    keyFromFifths (some 8) = "C" ∧ keyFromFifths (some 8) ≠ "C Major" := by decide

/-- Claim C6 (amended): the fifths integer is mapped through the fixed
circle-of-fifths table covering -7..7 (0 yields "C Major", 1 yields
"G Major", -1 yields "F Major", -2 yields "Bb Major"), but for an unknown or
missing fifths value the resulting key is the string `"C"` (without
`" Major"`). -/
theorem key_mapping_amended :
    keyFromFifths (some 0) = "C Major" ∧
    keyFromFifths (some 1) = "G Major" ∧
    keyFromFifths (some (-1)) = "F Major" ∧
    keyFromFifths (some (-2)) = "Bb Major" ∧
    keyFromFifths none = "C" ∧
    (∀ f : Int, majorKeys f = none → keyFromFifths (some f) = "C") ∧
    (∀ f : Int, -7 ≤ f → f ≤ 7 → majorKeys f ≠ none) := by
  refine ⟨by decide, by decide, by decide, by decide, by decide, ?_, ?_⟩
  · intro f hf
    simp [keyFromFifths, hf]
  · intro f h1 h2
    interval_cases f <;> decide

/-- Witness for C6 (amended) at concrete inputs: 8 is outside the table and
falls back to `"C"`, while -7 is inside the table. -/
theorem key_mapping_amended_witness :
    keyFromFifths (some 8) = "C" ∧ majorKeys (-7) ≠ none :=
  ⟨key_mapping_amended.2.2.2.2.2.1 8 (by decide),
   key_mapping_amended.2.2.2.2.2.2 (-7) (by decide) (by decide)⟩

/-- Counterexample to C7 as stated: the kind string `"minor-seventh"`
contains no `'7'` character, so the `includes('min') && includes('7')` branch
fails and every later branch compares for exact equality and fails too — the
suffix is empty, not `"m7"` (and likewise `"major-seventh"` is not
`"maj7"`). -/
theorem harmony_kind_counterexample :
    chordLabel "A" none (some "minor-seventh") = "A" ∧
    chordLabel "A" none (some "minor-seventh") ≠ "Am7" ∧
    chordLabel "C" none (some "major-seventh") = "C" ∧
    chordLabel "C" none (some "major-seventh") ≠ "Cmaj7" := by decide

/-- Claim C7 (amended): a harmony event with a truthy root step appends the
bracketed chord label (with surrounding spaces) to the section content and
adds it to the vocabulary; the label is root letter, plus `#` for alteration
`"1"` or `b` for `"-1"`, plus the kind suffix where (lower-cased)
`minor`/`min` yields `m`, `major`/`maj` yields the empty suffix, a kind
containing both `"min"` and the character `'7'` (e.g. `min7`) yields `m7`,
one containing `"maj"` and `'7'` (e.g. `maj7`) yields `maj7`,
`dominant`/`7` yields `7`, `diminished`/`dim` yields `dim`,
`augmented`/`aug` yields `aug` — but the MusicXML kinds `"minor-seventh"`
and `"major-seventh"` match none of the branches and yield the empty
suffix. -/
theorem harmony_chord_building_amended :
    (∀ (content : String) (vocab : List String) (hv : HarmonyEvent) (root : String),
      hv.rootStep = some root → root ≠ "" →
      applyChild (content, vocab) (MeasureChild.harmony hv) =
        (content ++ " [" ++ chordLabel root hv.rootAlter hv.kind ++ "] ",
         addChord vocab (chordLabel root hv.rootAlter hv.kind))) ∧
    chordLabel "C" (some "1") none = "C#" ∧
    chordLabel "B" (some "-1") none = "Bb" ∧
    chordLabel "A" none (some "minor") = "Am" ∧
    chordLabel "A" none (some "min") = "Am" ∧
    chordLabel "C" none (some "major") = "C" ∧
    chordLabel "A" none (some "minor-seventh") = "A" ∧
    chordLabel "C" none (some "major-seventh") = "C" ∧
    chordLabel "A" none (some "min7") = "Am7" ∧
    chordLabel "C" none (some "maj7") = "Cmaj7" ∧
    chordLabel "G" none (some "dominant") = "G7" ∧
    chordLabel "G" none (some "7") = "G7" ∧
    chordLabel "B" none (some "diminished") = "Bdim" ∧
    chordLabel "B" none (some "dim") = "Bdim" ∧
    chordLabel "C" none (some "augmented") = "Caug" ∧
    chordLabel "C" none (some "aug") = "Caug" := by
  refine ⟨?_, by decide, by decide, by decide, by decide, by decide, by decide,
    by decide, by decide, by decide, by decide, by decide, by decide, by decide,
    by decide, by decide⟩
  intro content vocab hv root hr hne
  simp [applyChild, hr, hne]

/-- Witness for C7 (amended) at a concrete input: an `A minor` harmony event
appends `" [Am] "` to the content and `Am` to the vocabulary. -/
theorem harmony_chord_building_amended_witness :
    applyChild ("", []) (MeasureChild.harmony ⟨some "A", none, some "minor"⟩) =
      (" [Am] ", ["Am"]) := by
  have h := harmony_chord_building_amended.1 "" [] ⟨some "A", none, some "minor"⟩ "A"
    rfl (by decide)
  rw [h]
  decide

/-- Claim C8: appending to the history list puts the new entry at the front,
keeps at most 10 entries in newest-first order, and at capacity (10 entries)
evicts the oldest (last) entry while preserving the relative order of the
rest. -/
theorem history_append_bounded_newest_first :
    ∀ (h : List HistoryItem) (i : HistoryItem),
      saveToHistory h i = i :: h.take 9 ∧
      (saveToHistory h i).head? = some i ∧
      (saveToHistory h i).length ≤ 10 ∧
      (h.length = 10 → saveToHistory h i = i :: h.dropLast) := by
  intro h i
  have h1 : saveToHistory h i = i :: h.take 9 := rfl
  refine ⟨h1, by rw [h1]; rfl, ?_, ?_⟩
  · rw [h1]
    simp only [List.length_cons, List.length_take]
    omega
  · intro h10
    rw [h1, List.dropLast_eq_take, h10]

/-- Witness for C8 at a concrete input: appending to a history list at the
10-entry capacity drops the oldest entry and keeps the new one in front. -/
theorem history_append_bounded_newest_first_witness :
    saveToHistory hist10 (sampleItem 0) = sampleItem 0 :: hist10.dropLast :=
  (history_append_bounded_newest_first hist10 (sampleItem 0)).2.2.2 (by decide)

/-- Counterexample to C9 as stated: the malformed label `"a:b"` splits into
two fields, so the code computes `Number("a") * 60 + Number("b")`, which is
NaN — a number, not null; the claim that every malformed input returns null
is false. -/
theorem timestamp_nan_counterexample :
    parseTimestamp (some "a:b") = some none ∧ parseTimestamp (some "a:b") ≠ none := by
  decide

/-- Claim C9 (amended): `parseTimestamp` is a pure function returning
`M*60 + S` for digit labels of the form `M:SS` (in particular `"1:05"`
returns 65) and `H*3600 + M*60 + S` for digit labels of the form `H:MM:SS`;
it returns null for an absent input (undefined or the empty string, both
falsy) and for labels that do not split into exactly 2 or 3 colon-separated
fields — but a 2- or 3-field label with a non-numeric field (e.g. `"a:b"`)
returns NaN rather than null. -/
theorem timestamp_parse_amended :
    (∀ m s : List Char, m ≠ [] → s ≠ [] →
      m.all isDigitChar = true → s.all isDigitChar = true →
      parseTimestamp (some (String.mk (m ++ ':' :: s))) =
        some (some ((natOfDigits m : Int) * 60 + (natOfDigits s : Int)))) ∧
    (∀ a b c : List Char, a ≠ [] → b ≠ [] → c ≠ [] →
      a.all isDigitChar = true → b.all isDigitChar = true → c.all isDigitChar = true →
      parseTimestamp (some (String.mk (a ++ ':' :: (b ++ ':' :: c)))) =
        some (some ((natOfDigits a : Int) * 3600 + (natOfDigits b : Int) * 60 +
          (natOfDigits c : Int)))) ∧
    parseTimestamp none = none ∧
    parseTimestamp (some "") = none ∧
    (∀ s : String, s ≠ "" →
      (splitChar ':' s.toList).length ≠ 2 → (splitChar ':' s.toList).length ≠ 3 →
      parseTimestamp (some s) = none) ∧
    parseTimestamp (some "1:05") = some (some 65) ∧
    parseTimestamp (some "a:b") = some none :=
  ⟨parseTimestamp_two_fields, parseTimestamp_three_fields, rfl, by decide,
   parseTimestamp_bad_arity, by decide, by decide⟩

/-- Witness for C9 (amended) at concrete inputs: `"1:05"` evaluates to 65 via
the two-field conjunct, `"1:02:03"` to 3723 via the three-field conjunct, and
the one-field label `"105"` returns null via the arity conjunct. -/
theorem timestamp_parse_amended_witness :
    parseTimestamp (some (String.mk (['1'] ++ ':' :: ['0', '5']))) =
      some (some ((natOfDigits ['1'] : Int) * 60 + (natOfDigits ['0', '5'] : Int))) ∧
    parseTimestamp (some (String.mk (['1'] ++ ':' :: (['0', '2'] ++ ':' :: ['0', '3'])))) =
      some (some ((natOfDigits ['1'] : Int) * 3600 + (natOfDigits ['0', '2'] : Int) * 60 +
        (natOfDigits ['0', '3'] : Int))) ∧
    parseTimestamp (some "105") = none :=
  ⟨timestamp_parse_amended.1 ['1'] ['0', '5'] (by decide) (by decide) (by decide) (by decide),
   timestamp_parse_amended.2.1 ['1'] ['0', '2'] ['0', '3'] (by decide) (by decide)
     (by decide) (by decide) (by decide) (by decide),
   timestamp_parse_amended.2.2.2.2.1 "105" (by decide) (by decide) (by decide)⟩

end PianoApp
